import Mathlib

/-!
Verification development for the ApsGo Railway irrigation worker
(`src/worker.js`).  The definitions below are a shallow embedding of the
worker's scheduling, threshold-evaluation, job-execution and state-client
code.  JavaScript numbers holding moisture percentages and bounds are
modelled as `Int`; epoch-millisecond clock values as `Nat`; fallible
external calls as explicit success flags or `Except`/`Option` values;
module-level mutable state (trigger ledger, cooldown map, failure
counters) as explicitly threaded state.
-/

/-- A raw value stored at a sensor key of the `data` document, as seen by
`parseInt(sensorData[soilKey]) || 0` (worker.js:199, worker.js:920).
`missing` is an absent key (`undefined`), `nonNumeric` a string with no
leading integer (whose `parseInt` is `NaN`), `numeric n` a value parsing
to the integer `n`. -/
inductive SensorVal where
  | missing : SensorVal
  | nonNumeric : String → SensorVal
  | numeric : Int → SensorVal
deriving DecidableEq, Repr

/-- `parseInt(v) || 0`: a missing or non-numeric reading parses to `NaN`,
which the `|| 0` coerces to `0`; a numeric reading keeps its value
(`parseInt` of `0` is falsy but `|| 0` yields `0` again, so `numeric 0`
is also `0`). Source: worker.js:199, worker.js:920. -/
def parseSoilValue : SensorVal → Int
  | .missing => 0
  | .nonNumeric _ => 0
  | .numeric n => n

/-- The per-job `sensorData` payload a threshold-triggered job carries
(worker.js:973-978). -/
structure JobSensorData where
  batasBawah : Int
  batasAtas : Int
  mode : String
  potValues : List (Int × Int)
deriving DecidableEq, Repr

/-- The payload of a watering job as enqueued into the BullMQ `watering`
queue (worker.js:699-708, worker.js:962-979).  Schedule-triggered jobs
leave `smartMode`/`sensorData` unset (`undefined`, falsy), modelled by
the defaults. -/
structure Job where
  type : String
  potNumbers : List Int
  pompaAir : Bool
  pompaPupuk : Bool
  duration : Nat
  scheduleId : String
  smartMode : Bool := false
  sensorData : Option JobSensorData := none
deriving DecidableEq, Repr

/-- `mosvet_${n}`, the actuator-channel key scheme (worker.js:158-164). -/
def mosvetKey (n : Int) : String := "mosvet_" ++ toString n

/-- The actuator-on update object built by the executor
(worker.js:157-166): `mosvet_1` if `pompaAir`, `mosvet_2` if
`pompaPupuk`, and `mosvet_${pot+2}` for each pot in `potNumbers` with
`1 <= pot <= 5`. -/
def onUpdates (pompaAir pompaPupuk : Bool) (potNumbers : List Int) :
    List (String × Bool) :=
  (if pompaAir then [("mosvet_1", true)] else []) ++
  (if pompaPupuk then [("mosvet_2", true)] else []) ++
  ((potNumbers.filter (fun p => decide (1 ≤ p ∧ p ≤ 5))).map
    (fun p => (mosvetKey (p + 2), true)))

/-- The safety update written in the executor's failure handler
(worker.js:267-276): all known actuator channels forced off. -/
def allOffUpdates : List (String × Bool) :=
  [("mosvet_1", false), ("mosvet_2", false), ("mosvet_3", false),
   ("mosvet_4", false), ("mosvet_5", false), ("mosvet_6", false),
   ("mosvet_7", false), ("mosvet_8", false)]

/-- A merge (PATCH) update of the `aktuator` document: listed keys take
their listed values, later entries win, all other keys are unchanged
(`updateFirebaseSmart`, worker.js:451-488; REST `PATCH`,
worker.js:421-438). -/
def applyPatch (st : String → Bool) (us : List (String × Bool)) :
    String → Bool :=
  us.foldl (fun acc kv => fun c => if c = kv.1 then kv.2 else acc c) st

/-- `allReached` in the smart-mode monitoring loop (worker.js:195-207):
every targeted pot's parsed `soil_${pot}` reading is at least the target. -/
def allReachedB (snap : Int → SensorVal) (pots : List Int) (target : Int) :
    Bool :=
  pots.all (fun p => decide (target ≤ parseSoilValue (snap p)))

/-- One iteration's early-exit test of the smart-mode loop
(worker.js:189-216): sensors are consulted only when the elapsed seconds
are a multiple of 5; a failed read (`catch`, worker.js:217-219) or a
null snapshot (worker.js:193) never stops the loop. -/
def stopCheckB (sensorAt : Nat → Option (Int → SensorVal))
    (pots : List Int) (target : Int) (t : Nat) : Bool :=
  (t % 5 == 0) &&
    (match sensorAt t with
     | some snap => allReachedB snap pots target
     | none => false)

/-- The smart-mode wait loop (worker.js:184-223) with one iteration per
second of sleep: at elapsed time `t` with `rem` seconds left before the
deadline, exit immediately once the deadline is consumed, else exit at
`t` if the early-exit test fires, else sleep one second. Returns the
elapsed time at exit. -/
def smartWaitGo (sensorAt : Nat → Option (Int → SensorVal))
    (pots : List Int) (target : Int) : Nat → Nat → Nat
  | t, 0 => t
  | t, rem + 1 =>
    if stopCheckB sensorAt pots target t then t
    else smartWaitGo sensorAt pots target (t + 1) rem

/-- Elapsed seconds of the whole smart-mode wait phase for a job of
`duration` seconds (worker.js:176-227). -/
def smartWait (sensorAt : Nat → Option (Int → SensorVal))
    (pots : List Int) (target : Int) (duration : Nat) : Nat :=
  smartWaitGo sensorAt pots target 0 duration

/-- One attempted write of the `aktuator` document: the update object
and whether the write succeeded. -/
structure WriteAttempt where
  updates : List (String × Bool)
  ok : Bool
deriving DecidableEq, Repr

/-- Environment of one executor run: whether the actuator-on write, the
actuator-off write and the safety-off write would succeed, and the
sensor snapshot (if readable) at each elapsed second of the smart loop. -/
structure ExecEnv where
  onOk : Bool
  offOk : Bool
  safetyOk : Bool
  sensorAt : Nat → Option (Int → SensorVal)

inductive ExecResult where
  | completed
  | failed
deriving DecidableEq, Repr

/-- Observable outcome of one executor run: the sequence of actuator
writes it attempted (in order), the job result, and the seconds spent in
the wait phase. -/
structure ExecOutcome where
  trace : List WriteAttempt
  result : ExecResult
  waitSeconds : Nat

/-- The watering worker's job processor (worker.js:141-292).  On-write
failure jumps to the catch block, which attempts the all-channels
safety-off write and rethrows (worker.js:262-282); on on-write success
the wait phase runs (smart-mode loop when `smartMode && sensorData &&
sensorData.batasAtas`, worker.js:176, else fixed sleep, worker.js:229-240),
then the off update — built from exactly the keys of the on update
(worker.js:243-246) — is written; if that off write fails, the catch
block again attempts the safety-off write and rethrows.  `logHistory`
catches its own errors (worker.js:1068-1070) and so never reaches the
outer catch. -/
def wateringWorkerRun (j : Job) (env : ExecEnv) : ExecOutcome :=
  let updates := onUpdates j.pompaAir j.pompaPupuk j.potNumbers
  if ¬ env.onOk then
    { trace := [⟨updates, false⟩, ⟨allOffUpdates, env.safetyOk⟩]
      result := .failed
      waitSeconds := 0 }
  else
    let wait :=
      match j.sensorData with
      | some sd =>
        if j.smartMode && !(sd.batasAtas == 0) then
          smartWait env.sensorAt j.potNumbers sd.batasAtas j.duration
        else j.duration
      | none => j.duration
    let offU := updates.map (fun kv => (kv.1, false))
    if env.offOk then
      { trace := [⟨updates, true⟩, ⟨offU, true⟩]
        result := .completed
        waitSeconds := wait }
    else
      { trace := [⟨updates, true⟩, ⟨offU, false⟩, ⟨allOffUpdates, env.safetyOk⟩]
        result := .failed
        waitSeconds := wait }

/-- `config.worker.sensorDebounce` (worker.js:67): 2-minute minimum
between waterings per pot, in milliseconds. -/
def sensorDebounce : Nat := 120000

/-- JavaScript `x || d` for an optional number: an absent field or the
falsy value `0` yields the default. Used for `batas_bawah || 30`,
`batas_atas || 70`, `durasi || 600` (worker.js:900-902). -/
def jsOrInt (v : Option Int) (d : Int) : Int :=
  match v with
  | none => d
  | some x => if x = 0 then d else x

/-- JavaScript `x || d` on an optional nonnegative number (durations). -/
def jsOrNat (v : Option Nat) (d : Nat) : Nat :=
  match v with
  | none => d
  | some x => if x = 0 then d else x

/-- One `threshold_*` node of the kontrol document (worker.js:888-906).
Absent fields are `none`. `aktif` is used only for its truthiness
(worker.js:895), modelled as `Bool`. -/
structure ThresholdEntry where
  aktif : Bool
  batas_bawah : Option Int
  batas_atas : Option Int
  durasi : Option Nat
  smart_mode : Option Bool
  pot_aktif : Option (List Int)
  pompa_air : Option Bool
  pompa_pupuk : Option Bool
deriving DecidableEq, Repr

def effBatasBawah (e : ThresholdEntry) : Int := jsOrInt e.batas_bawah 30
def effBatasAtas (e : ThresholdEntry) : Int := jsOrInt e.batas_atas 70
def effDurasi (e : ThresholdEntry) : Nat := jsOrNat e.durasi 600

/-- `threshold.smart_mode === true` (worker.js:903). -/
def effSmartMode (e : ThresholdEntry) : Bool := e.smart_mode = some true

/-- `threshold.pompa_air === true` (worker.js:905). -/
def effPompaAir (e : ThresholdEntry) : Bool := e.pompa_air = some true

/-- `threshold.pompa_pupuk === true` (worker.js:906). -/
def effPompaPupuk (e : ThresholdEntry) : Bool := e.pompa_pupuk = some true

/-- The per-pot cooldown map `lastWateringTime` (worker.js:137), pot
number to epoch milliseconds of the last recorded watering. -/
def LW : Type := Int → Option Nat

/-- The debounce test `lastTime && Date.now() - lastTime <
config.worker.sensorDebounce` (worker.js:939): no entry, or the falsy
timestamp `0`, means no cooldown; otherwise the elapsed time must reach
the debounce.  (`Nat` truncated subtraction agrees with the JavaScript
comparison: a clock reading earlier than the stamp gives a negative
difference in JS and `0` here, both below the debounce.) -/
def cooldownActive (lastTime : Option Nat) (now : Nat) : Bool :=
  match lastTime with
  | none => false
  | some t => if t = 0 then false else decide (now - t < sensorDebounce)

/-- The per-pot test of the threshold loop (worker.js:913-951): an
out-of-range pot is skipped; a pot at or above the upper bound is
skipped as already wet; a pot strictly below the lower bound is marked
as needing water unless its cooldown is active; anything else is OK. -/
def potNeedsWater (sd : Int → SensorVal) (bB bA : Int) (lw : LW)
    (now : Nat) (p : Int) : Bool :=
  if p < 1 ∨ 5 < p then false
  else
    let soil := parseSoilValue (sd p)
    if bA ≤ soil then false
    else if soil < bB then ! cooldownActive (lw p) now
    else false

/-- `potsNeedWatering` for one threshold entry (worker.js:908-951): the
active pots, in order, that pass `potNeedsWater`. -/
def potsNeedWatering (sd : Int → SensorVal) (e : ThresholdEntry) (lw : LW)
    (now : Nat) : List Int :=
  (e.pot_aktif.getD []).filter
    (potNeedsWater sd (effBatasBawah e) (effBatasAtas e) lw now)

/-- `lastWateringTime[pot_${p}] = Date.now()` for all included pots
(worker.js:989-992). -/
def updateLW (lw : LW) (pots : List Int) (now : Nat) : LW :=
  fun p => if p ∈ pots then some now else lw p

/-- The single WateringJob enqueued for one triggered `threshold_*`
entry (worker.js:962-985): it covers all pots of the entry that need
water and carries the entry's smart-mode flag, bounds and duration. -/
def thresholdJob (sd : Int → SensorVal) (now : Nat) (key : String)
    (e : ThresholdEntry) (lw : LW) : Job :=
  { type := "sensor_threshold"
    potNumbers := potsNeedWatering sd e lw now
    pompaAir := effPompaAir e
    pompaPupuk := effPompaPupuk e
    duration := effDurasi e
    scheduleId := key ++ "-" ++ toString now
    smartMode := effSmartMode e
    sensorData := some
      { batasBawah := effBatasBawah e
        batasAtas := effBatasAtas e
        mode := if effSmartMode e then "smart" else "fixed"
        potValues := (potsNeedWatering sd e lw now).map
          (fun p => (p, parseSoilValue (sd p))) } }

/-- Evaluation of one `threshold_*` entry (worker.js:888-993): an
inactive entry does nothing; otherwise, when at least one pot needs
water, a single job covering all such pots is enqueued (worker.js:962-985)
and the cooldown stamp of every included pot is set to the enqueue time,
before the job runs (worker.js:989-992). -/
def evalThresholdEntry (sd : Int → SensorVal) (now : Nat) (key : String)
    (e : ThresholdEntry) (lw : LW) : Option Job × LW :=
  if ¬ e.aktif then (none, lw)
  else if (potsNeedWatering sd e lw now).isEmpty then (none, lw)
  else (some (thresholdJob sd now key e lw),
        updateLW lw (potsNeedWatering sd e lw now) now)

/-- The loop over all `threshold_*` entries of one sensor check
(worker.js:888-994), threading the cooldown map. -/
def processThresholds (sd : Int → SensorVal) (now : Nat) :
    List (String × ThresholdEntry) → LW → List Job × LW
  | [], lw => ([], lw)
  | (k, e) :: rest, lw =>
    let step := evalThresholdEntry sd now k e lw
    let r := processThresholds sd now rest step.2
    (step.1.toList ++ r.1, r.2)

/-- The kontrol fields consulted by the sensor check: the `otomatis`
gate (worker.js:868) and the `threshold_*` nodes (worker.js:876). -/
structure SensorKontrol where
  otomatis : Bool
  thresholds : List (String × ThresholdEntry)

/-- One run of `checkSensorThresholds` (worker.js:847-998): a null
sensor snapshot, a null kontrol document, or a disabled `otomatis` flag
ends the check with no jobs and no cooldown change; otherwise every
threshold entry is processed in order. -/
def checkSensorThresholdsRun (sd : Option (Int → SensorVal))
    (kontrol : Option SensorKontrol) (now : Nat) (lw : LW) :
    List Job × LW :=
  match sd with
  | none => ([], lw)
  | some sdv =>
    match kontrol with
    | none => ([], lw)
    | some kc =>
      if ¬ kc.otomatis then ([], lw)
      else processThresholds sdv now kc.thresholds lw

/-- Input of one sensor-check tick: the sensor snapshot (if readable),
the kontrol document (if readable) and the clock value `Date.now()`. -/
structure SensorCheckInput where
  sd : Option (Int → SensorVal)
  kontrol : Option SensorKontrol
  now : Nat

/-- A run of successive `checkSensorThresholds` ticks, threading the
process-local `lastWateringTime` map; returns the jobs enqueued by each
tick, in order. -/
def runSensorChecks : List SensorCheckInput → LW → List (List Job) × LW
  | [], lw => ([], lw)
  | x :: xs, lw =>
    let a := checkSensorThresholdsRun x.sd x.kontrol x.now lw
    let b := runSensorChecks xs a.2
    (a.1 :: b.1, b.2)

/-- The jobs enqueued by the tick at position `i` of a run. -/
def jobsAt (inputs : List SensorCheckInput) (lw : LW) (i : Nat) :
    List Job :=
  ((runSensorChecks inputs lw).1.get? i).getD []

/-- The clock value of the tick at position `i`. -/
def timeAt (inputs : List SensorCheckInput) (i : Nat) : Nat :=
  ((inputs.get? i).map SensorCheckInput.now).getD 0

/-- Whether pot `p` is included in some job of the list. -/
def includedB (p : Int) (js : List Job) : Bool :=
  js.any (fun j => decide (p ∈ j.potNumbers))

/-- A sample threshold entry used to evaluate the definitions on
concrete inputs: active, default bounds (30/70), pot 1 only. -/
def sampleThresholdEntry : ThresholdEntry :=
  { aktif := true, batas_bawah := none, batas_atas := none, durasi := none,
    smart_mode := none, pot_aktif := some [1], pompa_air := none,
    pompa_pupuk := none }

/-- A sample sensor snapshot reading 10% everywhere (below the default
lower bound). -/
def sampleSensorDry : Int → SensorVal := fun _ => SensorVal.numeric 10

/-- A sample kontrol document with sensor automation enabled and one
threshold entry. -/
def sampleKontrol : SensorKontrol :=
  { otomatis := true, thresholds := [("threshold_1", sampleThresholdEntry)] }

/-- Two sensor-check ticks 199 seconds apart on the sample data. -/
def sampleInputs : List SensorCheckInput :=
  [{ sd := some sampleSensorDry, kontrol := some sampleKontrol, now := 1000 },
   { sd := some sampleSensorDry, kontrol := some sampleKontrol,
     now := 200000 }]

/-- `currentTime.replace(':', '_')` (worker.js:689): JavaScript
`String.replace` with a string pattern replaces only the first
occurrence. -/
def replaceFirstColonAux : List Char → List Char
  | [] => []
  | ch :: rest =>
    if ch = ':' then '_' :: rest else ch :: replaceFirstColonAux rest

def replaceFirstColon (s : String) : String := ⟨replaceFirstColonAux s.data⟩

/-- The trigger-ledger key
`${scheduleKey}_${dateKey}_${currentTime.replace(':', '_')}`
(worker.js:689; the legacy variants at worker.js:731 and worker.js:763
use the same shape with names `legacy_jadwal_1` / `legacy_jadwal_2`). -/
def mkJobKey (name d t : String) : String :=
  name ++ "_" ++ d ++ "_" ++ replaceFirstColon t

/-- `sub` occurs as a contiguous substring of the list. -/
def listContainsSub (sub : List Char) : List Char → Bool
  | [] => sub.isEmpty
  | c :: rest => sub.isPrefixOf (c :: rest) || listContainsSub sub rest

/-- JavaScript `s.includes(sub)` (worker.js:797). -/
def strIncludes (s sub : String) : Bool := listContainsSub sub.data s.data

/-- One `jadwal_*` node of the kontrol document (worker.js:655-686).
Absent fields are `none`. -/
structure Schedule where
  aktif : Option Bool
  waktu : Option String
  pot_aktif : Option (List Int)
  durasi : Option Nat
  pompa_air : Option Bool
  pompa_pupuk : Option Bool
deriving DecidableEq, Repr

/-- The kontrol fields consulted by the schedule check: the `waktu` mode
gate (worker.js:648), the `jadwal_*` nodes (worker.js:618) and the
legacy flat fields (worker.js:730-792). -/
structure Kontrol where
  waktu : Bool
  jadwal : List (String × Schedule)
  waktu_1 : Option String
  waktu_2 : Option String
  durasi_1 : Option Nat
  durasi_2 : Option Nat
deriving DecidableEq, Repr

/-- Processing of one `jadwal_*` entry at current time `t` and date key
`d` against the trigger ledger `L` (worker.js:655-727): skip when
explicitly inactive (`aktif !== false` defaults to active), when the
entry's time is unset/empty or differs from the current time, when
`pot_aktif` is empty, or when the job key is already in the ledger;
otherwise enqueue one job and mark the key fired. -/
def tryEnqueueSchedule (t d k : String) (s : Schedule) (L : List String) :
    Option (Job × List String) :=
  if s.aktif = some false then none
  else if s.waktu.getD "" = "" then none
  else if s.waktu.getD "" ≠ t then none
  else if (s.pot_aktif.getD []).isEmpty then none
  else if mkJobKey k d t ∈ L then none
  else some
    ({ type := "waktu_" ++ k
       potNumbers := s.pot_aktif.getD []
       pompaAir := s.pompa_air ≠ some false
       pompaPupuk := s.pompa_pupuk = some true
       duration := jsOrNat s.durasi 60
       scheduleId := mkJobKey k d t }, mkJobKey k d t :: L)

/-- Processing of one legacy slot (`waktu_1`/`waktu_2`,
worker.js:730-792): fires on an exact, nonempty time match, dedupes by
the `legacy_jadwal_*` ledger key, and waters all pots with both pumps. -/
def tryEnqueueLegacy (t d name ty : String) (w : Option String)
    (dur : Option Nat) (L : List String) : Option (Job × List String) :=
  if w.getD "" = "" then none
  else if w.getD "" ≠ t then none
  else if mkJobKey name d t ∈ L then none
  else some
    ({ type := ty
       potNumbers := [1, 2, 3, 4, 5]
       pompaAir := true
       pompaPupuk := true
       duration := jsOrNat dur 60
       scheduleId := mkJobKey name d t }, mkJobKey name d t :: L)

/-- Turn a guarded enqueue attempt into a ledger transformer. -/
def runTry (tryf : List String → Option (Job × List String))
    (L : List String) : List Job × List String :=
  match tryf L with
  | none => ([], L)
  | some (j, L2) => ([j], L2)

/-- Sequential composition of two ledger-threading stages, concatenating
their enqueued jobs. -/
def seqStage (f g : List String → List Job × List String) :
    List String → List Job × List String :=
  fun L => ((f L).1 ++ (g (f L).2).1, (g (f L).2).2)

/-- The loop over all `jadwal_*` entries of one schedule check
(worker.js:655-727), in order, threading the trigger ledger. -/
def processSchedules (t d : String) :
    List (String × Schedule) → List String → List Job × List String
  | [], L => ([], L)
  | (k, s) :: rest, L =>
    seqStage (runTry (tryEnqueueSchedule t d k s))
      (processSchedules t d rest) L

/-- The trigger-ledger cleanup at the end of a cycle (worker.js:795-799):
every key not containing today's date key is deleted. -/
def cleanupStage (d : String) :
    List String → List Job × List String :=
  fun L => ([], L.filter (fun key => strIncludes key d))

/-- One cycle of `checkScheduledWatering` after a successful config read
(worker.js:605-799): a null config or a disabled `waktu` mode returns
early with no jobs and no ledger change (the cleanup is not reached);
otherwise all dynamic entries are processed, then the two legacy slots,
then the ledger cleanup. -/
def schedCycleCore (cfg : Option Kontrol) (t d : String) :
    List String → List Job × List String :=
  match cfg with
  | none => fun L => ([], L)
  | some kc =>
    if ¬ kc.waktu then fun L => ([], L)
    else
      seqStage (processSchedules t d kc.jadwal)
        (seqStage
          (runTry (tryEnqueueLegacy t d "legacy_jadwal_1" "waktu_jadwal_1"
            kc.waktu_1 kc.durasi_1))
          (seqStage
            (runTry (tryEnqueueLegacy t d "legacy_jadwal_2" "waktu_jadwal_2"
              kc.waktu_2 kc.durasi_2))
            (cleanupStage d)))

/-- One cycle of `checkScheduledWatering` (worker.js:593-815) with the
outcome of `fetchKontrolSmart` made explicit: the whole body runs inside
`try`/`catch` (worker.js:597, worker.js:800-814), so a failed config
read is caught and the cycle returns normally — never crashing the
worker — with no job enqueued and the ledger untouched. -/
def checkScheduledWatering (fetched : Except Unit (Option Kontrol))
    (t d : String) : List String → List Job × List String :=
  match fetched with
  | .error _ => fun L => ([], L)
  | .ok cfg => schedCycleCore cfg t d

/-- A run of successive schedule-check cycles on the same date key `d`,
threading the process-local trigger ledger `lastScheduleCheck`
(worker.js:304); each input is the fetch outcome and the current
"HH:MM" time of that cycle. -/
def runScheduleCycles (d : String) :
    List (Except Unit (Option Kontrol) × String) → List String →
      List Job × List String
  | [], L => ([], L)
  | (f, t) :: rest, L =>
    seqStage (checkScheduledWatering f t d) (runScheduleCycles d rest) L

/-- The dedup invariant of a ledger-threading stage with respect to one
job id: the id's ledger membership is preserved, at most one job with
that id is emitted, emitting one records the id in the ledger, and an id
already in the ledger is never emitted again. -/
def StageOK (id : String)
    (f : List String → List Job × List String) : Prop :=
  ∀ L,
    (id ∈ L → id ∈ (f L).2) ∧
    (f L).1.countP (fun j => decide (j.scheduleId = id)) ≤ 1 ∧
    ((f L).1.countP (fun j => decide (j.scheduleId = id)) = 1 →
      id ∈ (f L).2) ∧
    (id ∈ L → (f L).1.countP (fun j => decide (j.scheduleId = id)) = 0)

/-- `SKIP_SDK_THRESHOLD` (worker.js:313). -/
def SKIP_SDK_THRESHOLD : Nat := 3

/-- `RESET_THRESHOLD_AFTER` (worker.js:314). -/
def RESET_THRESHOLD_AFTER : Nat := 50

/-- The module-level counters driving the adaptive transport policy
(worker.js:308-310). -/
structure SmartFetchState where
  consecutiveFirebaseErrors : Nat
  sdkSuccessCount : Nat
  restFallbackCount : Nat
deriving DecidableEq, Repr

/-- How one `fetchKontrolSmart` call was served: over the SDK, over REST
after an attempted-and-failed SDK call, over REST directly (SDK
skipped), or failed (with or without an SDK attempt). -/
inductive FetchOutcome where
  | viaSDK
  | viaRESTFallback
  | viaRESTDirect
  | failedDirect
  | failedBoth
deriving DecidableEq, Repr

/-- `fetchKontrolSmart` (worker.js:367-418), with the would-be success
of each transport as input.  When the consecutive-SDK-failure counter
has reached the threshold, the SDK is skipped and REST used directly;
each such REST success bumps `restFallbackCount` and, once it reaches
`RESET_THRESHOLD_AFTER`, both it and the error counter reset
(worker.js:377-382).  Otherwise the SDK is tried first: success resets
both counters (worker.js:395-397); failure bumps the error counter and
falls back to REST, whose success bumps `restFallbackCount` with no
reset check (worker.js:399-412). -/
def fetchKontrolSmart (sdkOk restOk : Bool) (s : SmartFetchState) :
    FetchOutcome × SmartFetchState :=
  if SKIP_SDK_THRESHOLD ≤ s.consecutiveFirebaseErrors then
    if restOk then
      if RESET_THRESHOLD_AFTER ≤ s.restFallbackCount + 1 then
        (.viaRESTDirect,
         { s with consecutiveFirebaseErrors := 0, restFallbackCount := 0 })
      else
        (.viaRESTDirect,
         { s with restFallbackCount := s.restFallbackCount + 1 })
    else (.failedDirect, s)
  else if sdkOk then
    (.viaSDK,
     { s with consecutiveFirebaseErrors := 0, restFallbackCount := 0,
              sdkSuccessCount := s.sdkSuccessCount + 1 })
  else if restOk then
    (.viaRESTFallback,
     { s with consecutiveFirebaseErrors := s.consecutiveFirebaseErrors + 1,
              restFallbackCount := s.restFallbackCount + 1 })
  else
    (.failedBoth,
     { s with consecutiveFirebaseErrors := s.consecutiveFirebaseErrors + 1 })

/-- A sequence of `fetchKontrolSmart` calls, threading the counters and
recording each call's outcome. -/
def runFetches :
    List (Bool × Bool) → SmartFetchState → List FetchOutcome × SmartFetchState
  | [], s => ([], s)
  | (sdkOk, restOk) :: rest, s =>
    ((fetchKontrolSmart sdkOk restOk s).1 ::
      (runFetches rest (fetchKontrolSmart sdkOk restOk s).2).1,
     (runFetches rest (fetchKontrolSmart sdkOk restOk s).2).2)

/-- Counter state at worker startup (worker.js:308-310). -/
def initialFetchState : SmartFetchState :=
  { consecutiveFirebaseErrors := 0, sdkSuccessCount := 0,
    restFallbackCount := 0 }

/-- Three SDK failures with successful REST fallbacks, then 47
skip-mode calls with both transports healthy. -/
def fetchSeq47 : List (Bool × Bool) :=
  List.replicate 3 (false, true) ++ List.replicate 47 (true, true)

-- ==================== THEOREMS ====================

theorem applyPatch_frame :
    ∀ (us : List (String × Bool)) (st : String → Bool) (c : String),
      c ∉ us.map Prod.fst → applyPatch st us c = st c := by
  intro us
  induction us with
  | nil => intro st c _; rfl
  | cons kv rest ih =>
    intro st c h
    simp only [List.map_cons, List.mem_cons, not_or] at h
    show applyPatch _ rest c = st c
    rw [ih _ c h.2]
    simp [h.1]

theorem mem_onUpdates (pa pp : Bool) (pots : List Int) (c : String) :
    (c, true) ∈ onUpdates pa pp pots ↔
      (c = "mosvet_1" ∧ pa = true) ∨ (c = "mosvet_2" ∧ pp = true) ∨
        ∃ p, p ∈ pots ∧ 1 ≤ p ∧ p ≤ 5 ∧ c = mosvetKey (p + 2) := by
  constructor
  · intro h
    rcases List.mem_append.1 h with hab | hc
    · rcases List.mem_append.1 hab with ha | hb
      · left
        cases pa with
        | false => simp at ha
        | true =>
          simp only [if_true, List.mem_singleton, Prod.mk.injEq] at ha
          exact ⟨ha.1, rfl⟩
      · right; left
        cases pp with
        | false => simp at hb
        | true =>
          simp only [if_true, List.mem_singleton, Prod.mk.injEq] at hb
          exact ⟨hb.1, rfl⟩
    · right; right
      rcases List.mem_map.1 hc with ⟨p, hpf, heq⟩
      rcases List.mem_filter.1 hpf with ⟨hp, hcond⟩
      have hrange := of_decide_eq_true hcond
      simp only [Prod.mk.injEq] at heq
      exact ⟨p, hp, hrange.1, hrange.2, heq.1.symm⟩
  · rintro (⟨rfl, rfl⟩ | ⟨rfl, rfl⟩ | ⟨p, hp, h1, h5, rfl⟩)
    · exact List.mem_append.2 (Or.inl (List.mem_append.2 (Or.inl (by simp))))
    · exact List.mem_append.2 (Or.inl (List.mem_append.2 (Or.inr (by simp))))
    · exact List.mem_append.2 (Or.inr
        (List.mem_map.2 ⟨p, List.mem_filter.2 ⟨hp, by simp [h1, h5]⟩, rfl⟩))

theorem onUpdates_mem_allOff (pa pp : Bool) (pots : List Int) (c : String)
    (h : (c, true) ∈ onUpdates pa pp pots) : (c, false) ∈ allOffUpdates := by
  rcases (mem_onUpdates pa pp pots c).1 h with ⟨rfl, _⟩ | ⟨rfl, _⟩ | ⟨p, _, h1, h5, rfl⟩
  · decide
  · decide
  · interval_cases p <;> decide

theorem smartWaitGo_le (sa : Nat → Option (Int → SensorVal))
    (pots : List Int) (target : Int) :
    ∀ (rem t : Nat), smartWaitGo sa pots target t rem ≤ t + rem := by
  intro rem
  induction rem with
  | zero => intro t; simp [smartWaitGo]
  | succ n ih =>
    intro t
    simp only [smartWaitGo]
    split
    · omega
    · have := ih (t + 1)
      omega

theorem smartWaitGo_stop (sa : Nat → Option (Int → SensorVal))
    (pots : List Int) (target : Int) :
    ∀ (rem t : Nat), smartWaitGo sa pots target t rem < t + rem →
      stopCheckB sa pots target (smartWaitGo sa pots target t rem) = true := by
  intro rem
  induction rem with
  | zero => intro t h; simp [smartWaitGo] at h
  | succ n ih =>
    intro t h
    simp only [smartWaitGo] at h ⊢
    by_cases hs : stopCheckB sa pots target t = true
    · simp [hs]
    · simp only [hs, if_false, Bool.false_eq_true] at h ⊢
      exact ih (t + 1) (by omega)

theorem smartWaitGo_not_stopped_before (sa : Nat → Option (Int → SensorVal))
    (pots : List Int) (target : Int) :
    ∀ (rem t t2 : Nat), t ≤ t2 → t2 < smartWaitGo sa pots target t rem →
      stopCheckB sa pots target t2 = false := by
  intro rem
  induction rem with
  | zero => intro t t2 hle h; simp [smartWaitGo] at h; omega
  | succ n ih =>
    intro t t2 hle h
    simp only [smartWaitGo] at h
    by_cases hs : stopCheckB sa pots target t = true
    · simp only [hs, if_true] at h; omega
    · simp only [hs, if_false, Bool.false_eq_true] at h
      rcases Nat.eq_or_lt_of_le hle with rfl | hlt
      · exact Bool.not_eq_true _ ▸ (Bool.eq_false_iff.2 hs)
      · exact ih (t + 1) t2 hlt h

/-- C4: for every smart-mode job with an upper-bound target and a
duration, the executor's wait phase is the smart-mode monitoring loop,
it terminates at or before `duration` seconds, an exit strictly before
the deadline happens exactly at a 5-second sensor check where every
targeted pot's reading reached the target, and at no earlier second did
such a check succeed (deadline/condition race, whichever first). -/
theorem claim_C4_smart_mode_deadline (j : Job) (env : ExecEnv)
    (sd : JobSensorData) (hsm : j.smartMode = true)
    (hsd : j.sensorData = some sd) (hba : sd.batasAtas ≠ 0)
    (hon : env.onOk = true) :
    (wateringWorkerRun j env).waitSeconds
        = smartWait env.sensorAt j.potNumbers sd.batasAtas j.duration ∧
    (wateringWorkerRun j env).waitSeconds ≤ j.duration ∧
    ((wateringWorkerRun j env).waitSeconds < j.duration →
      stopCheckB env.sensorAt j.potNumbers sd.batasAtas
        (wateringWorkerRun j env).waitSeconds = true) ∧
    (∀ t, t < (wateringWorkerRun j env).waitSeconds →
      stopCheckB env.sensorAt j.potNumbers sd.batasAtas t = false) := by
  have hw : (wateringWorkerRun j env).waitSeconds
      = smartWait env.sensorAt j.potNumbers sd.batasAtas j.duration := by
    have hba2 : (sd.batasAtas == 0) = false := by
      simpa using hba
    cases hoff : env.offOk <;>
      simp [wateringWorkerRun, hon, hoff, hsd, hsm, hba2]
  refine ⟨hw, ?_, ?_, ?_⟩
  · rw [hw]
    simpa using smartWaitGo_le env.sensorAt j.potNumbers sd.batasAtas j.duration 0
  · rw [hw]
    intro hlt
    exact smartWaitGo_stop env.sensorAt j.potNumbers sd.batasAtas j.duration 0
      (by simpa [smartWait] using hlt)
  · rw [hw]
    intro t ht
    exact smartWaitGo_not_stopped_before env.sensorAt j.potNumbers sd.batasAtas
      j.duration 0 t (Nat.zero_le t) ht

/-- Witness for C4 at a concrete job: smart-mode job targeting 70 with a
10-second cap and sensors that never reach the target waits the full 10
seconds. -/
theorem claim_C4_smart_mode_deadline_witness :
    (wateringWorkerRun
      { type := "sensor_threshold", potNumbers := [1, 2], pompaAir := true,
        pompaPupuk := false, duration := 10, scheduleId := "threshold_1-1000",
        smartMode := true,
        sensorData := some { batasBawah := 30, batasAtas := 70, mode := "smart",
                             potValues := [(1, 20), (2, 50)] } }
      { onOk := true, offOk := true, safetyOk := true,
        sensorAt := fun _ => some (fun _ => SensorVal.numeric 40) }).waitSeconds
      ≤ 10 :=
  (claim_C4_smart_mode_deadline
    { type := "sensor_threshold", potNumbers := [1, 2], pompaAir := true,
      pompaPupuk := false, duration := 10, scheduleId := "threshold_1-1000",
      smartMode := true,
      sensorData := some { batasBawah := 30, batasAtas := 70, mode := "smart",
                           potValues := [(1, 20), (2, 50)] } }
    { onOk := true, offOk := true, safetyOk := true,
      sensorAt := fun _ => some (fun _ => SensorVal.numeric 40) }
    { batasBawah := 30, batasAtas := 70, mode := "smart",
      potValues := [(1, 20), (2, 50)] }
    rfl rfl (by decide) rfl).2.1

/-- C9: on a successfully completed job (on and off writes both succeed),
the trace is exactly the actuator-on write followed by the actuator-off
write; the on update maps `pumpWater` to `mosvet_1`, `pumpFertilizer` to
`mosvet_2` and each pot `N` in `1..5` to `mosvet_{N+2}`; the off update
is built from precisely the keys of the on update with value `false`;
and a merge update leaves every channel outside its key set unchanged. -/
theorem claim_C9_off_write_exact_frame (j : Job) (env : ExecEnv)
    (hon : env.onOk = true) (hoff : env.offOk = true) :
    ((wateringWorkerRun j env).trace =
      [⟨onUpdates j.pompaAir j.pompaPupuk j.potNumbers, true⟩,
       ⟨(onUpdates j.pompaAir j.pompaPupuk j.potNumbers).map
          (fun kv => (kv.1, false)), true⟩]) ∧
    (∀ c : String,
      (c, true) ∈ onUpdates j.pompaAir j.pompaPupuk j.potNumbers ↔
        (c = "mosvet_1" ∧ j.pompaAir = true) ∨
        (c = "mosvet_2" ∧ j.pompaPupuk = true) ∨
        ∃ p, p ∈ j.potNumbers ∧ 1 ≤ p ∧ p ≤ 5 ∧ c = mosvetKey (p + 2)) ∧
    (((onUpdates j.pompaAir j.pompaPupuk j.potNumbers).map
        (fun kv => (kv.1, false))).map Prod.fst
      = (onUpdates j.pompaAir j.pompaPupuk j.potNumbers).map Prod.fst) ∧
    (∀ kv ∈ (onUpdates j.pompaAir j.pompaPupuk j.potNumbers).map
        (fun kv => (kv.1, false)), kv.2 = false) ∧
    (∀ (us : List (String × Bool)) (st : String → Bool) (c : String),
      c ∉ us.map Prod.fst → applyPatch st us c = st c) := by
  refine ⟨?_, mem_onUpdates j.pompaAir j.pompaPupuk j.potNumbers, ?_, ?_,
    applyPatch_frame⟩
  · simp [wateringWorkerRun, hon, hoff]
  · simp [List.map_map]
  · intro kv hkv
    rcases List.mem_map.1 hkv with ⟨kv0, _, heq⟩
    rw [← heq]

/-- Witness for C9: a job turning on the water pump and pots 1 and 3
yields an off write over exactly `mosvet_1`, `mosvet_3`, `mosvet_5`. -/
theorem claim_C9_off_write_exact_frame_witness :
    (wateringWorkerRun
      { type := "waktu_jadwal_1", potNumbers := [1, 3], pompaAir := true,
        pompaPupuk := false, duration := 60,
        scheduleId := "jadwal_1_2026-10-11_08_00" }
      { onOk := true, offOk := true, safetyOk := true,
        sensorAt := fun _ => none }).trace =
      [⟨onUpdates true false [1, 3], true⟩,
       ⟨(onUpdates true false [1, 3]).map (fun kv => (kv.1, false)), true⟩] :=
  (claim_C9_off_write_exact_frame
    { type := "waktu_jadwal_1", potNumbers := [1, 3], pompaAir := true,
      pompaPupuk := false, duration := 60,
      scheduleId := "jadwal_1_2026-10-11_08_00" }
    { onOk := true, offOk := true, safetyOk := true,
      sensorAt := fun _ => none }
    rfl rfl).1

/-- C1: in every executor run — success or failure — every actuator
channel that a successful write turned on is targeted with `false` by a
strictly later write attempt in the run's trace: the off write on
success, the all-channels (`mosvet_1`..`mosvet_8`) safety write issued
by the catch block before rethrowing on failure. -/
theorem claim_C1_on_channels_written_off (j : Job) (env : ExecEnv)
    (i : Nat) (u : List (String × Bool)) (c : String)
    (hget : (wateringWorkerRun j env).trace.get? i = some ⟨u, true⟩)
    (hmem : (c, true) ∈ u) :
    ∃ k w, i < k ∧ (wateringWorkerRun j env).trace.get? k = some w ∧
      (c, false) ∈ w.updates := by
  by_cases hon : env.onOk = true
  · by_cases hoff : env.offOk = true
    · simp only [wateringWorkerRun, hon, hoff, not_true, if_false, if_true,
        Bool.false_eq_true] at hget ⊢
      match i with
      | 0 =>
        simp only [List.get?] at hget
        injection hget with h1
        have hu : u = onUpdates j.pompaAir j.pompaPupuk j.potNumbers := by
          injection h1 with e1 e2
          exact e1.symm
        refine ⟨1, ⟨(onUpdates j.pompaAir j.pompaPupuk j.potNumbers).map
          (fun kv => (kv.1, false)), true⟩, by omega, by simp [List.get?], ?_⟩
        exact List.mem_map.2 ⟨(c, true), hu ▸ hmem, rfl⟩
      | 1 =>
        simp only [List.get?] at hget
        injection hget with h1
        have hu : u = (onUpdates j.pompaAir j.pompaPupuk j.potNumbers).map
            (fun kv => (kv.1, false)) := by
          injection h1 with e1 e2
          exact e1.symm
        rcases List.mem_map.1 (hu ▸ hmem) with ⟨kv0, _, heq⟩
        exact absurd (congrArg Prod.snd heq) (by simp)
      | (n + 2) => simp [List.get?] at hget
    · have hoff2 : env.offOk = false := by
        cases h : env.offOk
        · rfl
        · exact absurd h hoff
      simp only [wateringWorkerRun, hon, hoff2, not_true, if_false, if_true,
        Bool.false_eq_true] at hget ⊢
      match i with
      | 0 =>
        simp only [List.get?] at hget
        injection hget with h1
        have hu : u = onUpdates j.pompaAir j.pompaPupuk j.potNumbers := by
          injection h1 with e1 e2
          exact e1.symm
        refine ⟨2, ⟨allOffUpdates, env.safetyOk⟩, by omega,
          by simp [List.get?], ?_⟩
        exact onUpdates_mem_allOff j.pompaAir j.pompaPupuk j.potNumbers c
          (hu ▸ hmem)
      | 1 =>
        simp only [List.get?] at hget
        injection hget with h1
        exact absurd (congrArg WriteAttempt.ok h1) (by simp)
      | 2 =>
        simp only [List.get?] at hget
        injection hget with h1
        have hu : u = allOffUpdates := by
          injection h1 with e1 e2
          exact e1.symm
        have : (c, true) ∈ allOffUpdates := hu ▸ hmem
        simp [allOffUpdates] at this
      | (n + 3) => simp [List.get?] at hget
  · have hon2 : env.onOk = false := by
      cases h : env.onOk
      · rfl
      · exact absurd h hon
    simp only [wateringWorkerRun, hon2, not_false_iff, if_true,
      Bool.false_eq_true] at hget ⊢
    match i with
    | 0 =>
      simp only [List.get?] at hget
      injection hget with h1
      exact absurd (congrArg WriteAttempt.ok h1) (by simp)
    | 1 =>
      simp only [List.get?] at hget
      injection hget with h1
      have hu : u = allOffUpdates := by
          injection h1 with e1 e2
          exact e1.symm
      have : (c, true) ∈ allOffUpdates := hu ▸ hmem
      simp [allOffUpdates] at this
    | (n + 2) => simp [List.get?] at hget

/-- Witness for C1 on the failure path: the off write fails, and the
pump channel `mosvet_1` that the on write turned on is targeted with
`false` by the later safety write. -/
theorem claim_C1_on_channels_written_off_witness :
    ∃ k w, 0 < k ∧
      (wateringWorkerRun
        { type := "waktu_jadwal_1", potNumbers := [1], pompaAir := true,
          pompaPupuk := false, duration := 10,
          scheduleId := "jadwal_1_2026-10-11_08_00" }
        { onOk := true, offOk := false, safetyOk := true,
          sensorAt := fun _ => none }).trace.get? k = some w ∧
      ("mosvet_1", false) ∈ w.updates :=
  claim_C1_on_channels_written_off
    { type := "waktu_jadwal_1", potNumbers := [1], pompaAir := true,
      pompaPupuk := false, duration := 10,
      scheduleId := "jadwal_1_2026-10-11_08_00" }
    { onOk := true, offOk := false, safetyOk := true,
      sensorAt := fun _ => none }
    0 (onUpdates true false [1]) "mosvet_1" (by decide) (by decide)

theorem potNeedsWater_facts (sd : Int → SensorVal) (bB bA : Int) (lw : LW)
    (now : Nat) (p : Int) (h : potNeedsWater sd bB bA lw now p = true) :
    1 ≤ p ∧ p ≤ 5 ∧ parseSoilValue (sd p) < bA ∧
      parseSoilValue (sd p) < bB ∧ cooldownActive (lw p) now = false := by
  simp only [potNeedsWater] at h
  split_ifs at h with h1 h2 h3 <;>
    first
      | exact ⟨by omega, by omega, by omega, by omega, by simpa using h⟩
      | simp at h

theorem potNeedsWater_of_facts (sd : Int → SensorVal) (bB bA : Int) (lw : LW)
    (now : Nat) (p : Int) (h1 : 1 ≤ p) (h5 : p ≤ 5)
    (hA : parseSoilValue (sd p) < bA) (hB : parseSoilValue (sd p) < bB)
    (hc : cooldownActive (lw p) now = false) :
    potNeedsWater sd bB bA lw now p = true := by
  simp only [potNeedsWater]
  rw [if_neg (by omega), if_neg (by omega), if_pos hB]
  simp [hc]

theorem mem_potsNeedWatering (sd : Int → SensorVal) (e : ThresholdEntry)
    (lw : LW) (now : Nat) (p : Int) :
    p ∈ potsNeedWatering sd e lw now ↔
      p ∈ e.pot_aktif.getD [] ∧
        potNeedsWater sd (effBatasBawah e) (effBatasAtas e) lw now p = true := by
  simp [potsNeedWatering, List.mem_filter]

theorem evalThresholdEntry_inactive (sd : Int → SensorVal) (now : Nat)
    (key : String) (e : ThresholdEntry) (lw : LW) (h1 : e.aktif = false) :
    evalThresholdEntry sd now key e lw = (none, lw) := by
  unfold evalThresholdEntry
  rw [if_pos (by simp [h1])]

theorem evalThresholdEntry_empty (sd : Int → SensorVal) (now : Nat)
    (key : String) (e : ThresholdEntry) (lw : LW)
    (h2 : potsNeedWatering sd e lw now = []) :
    evalThresholdEntry sd now key e lw = (none, lw) := by
  unfold evalThresholdEntry
  by_cases h1 : e.aktif = true
  · rw [if_neg (by simp [h1]), h2]
    simp
  · rw [if_pos (by simpa using h1)]

theorem evalThresholdEntry_active (sd : Int → SensorVal) (now : Nat)
    (key : String) (e : ThresholdEntry) (lw : LW) (h1 : e.aktif = true)
    (h2 : potsNeedWatering sd e lw now ≠ []) :
    evalThresholdEntry sd now key e lw
      = (some (thresholdJob sd now key e lw),
         updateLW lw (potsNeedWatering sd e lw now) now) := by
  unfold evalThresholdEntry
  rw [if_neg (by simp [h1]), if_neg (by simpa [List.isEmpty_iff] using h2)]

theorem cooldownActive_self (now : Nat) (h : 0 < now) :
    cooldownActive (some now) now = true := by
  have hne : now ≠ 0 := by omega
  simp [cooldownActive, hne, Nat.sub_self, sensorDebounce]

theorem cooldown_false_gap (t0 n : Nat)
    (h : cooldownActive (some t0) n = false) (ht : t0 ≠ 0) :
    sensorDebounce ≤ n - t0 := by
  simp [cooldownActive, ht, sensorDebounce] at h ⊢
  omega

theorem includedB_append (p : Int) (a b : List Job) :
    includedB p (a ++ b) = (includedB p a || includedB p b) := by
  simp [includedB, List.any_append]

theorem includedB_nil (p : Int) : includedB p [] = false := rfl

theorem includedB_cons (p : Int) (j : Job) (js : List Job) :
    includedB p (j :: js) = (decide (p ∈ j.potNumbers) || includedB p js) := by
  simp [includedB]

theorem thresholdJob_potNumbers (sd : Int → SensorVal) (now : Nat)
    (key : String) (e : ThresholdEntry) (lw : LW) :
    (thresholdJob sd now key e lw).potNumbers = potsNeedWatering sd e lw now :=
  rfl

theorem processThresholds_untouched (sd : Int → SensorVal) (now : Nat) :
    ∀ (es : List (String × ThresholdEntry)) (lw : LW) (p : Int),
      includedB p (processThresholds sd now es lw).1 = false →
      (processThresholds sd now es lw).2 p = lw p := by
  intro es
  induction es with
  | nil => intro lw p _; rfl
  | cons ke rest ih =>
    obtain ⟨k, e⟩ := ke
    intro lw p h
    simp only [processThresholds] at h ⊢
    by_cases h1 : e.aktif = true
    · by_cases h2 : potsNeedWatering sd e lw now = []
      · rw [evalThresholdEntry_empty sd now k e lw h2] at h ⊢
        simp only [Option.toList_none, List.nil_append] at h ⊢
        exact ih lw p h
      · rw [evalThresholdEntry_active sd now k e lw h1 h2] at h ⊢
        simp only [Option.toList_some, List.singleton_append, includedB_cons,
          Bool.or_eq_false_iff] at h
        obtain ⟨hhead, hrest⟩ := h
        have hnotmem : p ∉ potsNeedWatering sd e lw now := by
          rw [thresholdJob_potNumbers] at hhead
          exact of_decide_eq_false hhead
        rw [ih _ p hrest]
        simp [updateLW, hnotmem]
    · rw [evalThresholdEntry_inactive sd now k e lw (by simpa using h1)]
        at h ⊢
      simp only [Option.toList_none, List.nil_append] at h ⊢
      exact ih lw p h

theorem processThresholds_included_stamp (sd : Int → SensorVal) (now : Nat) :
    ∀ (es : List (String × ThresholdEntry)) (lw : LW) (p : Int),
      includedB p (processThresholds sd now es lw).1 = true →
      (processThresholds sd now es lw).2 p = some now := by
  intro es
  induction es with
  | nil => intro lw p h; simp [processThresholds, includedB_nil] at h
  | cons ke rest ih =>
    obtain ⟨k, e⟩ := ke
    intro lw p h
    simp only [processThresholds] at h ⊢
    by_cases h1 : e.aktif = true
    · by_cases h2 : potsNeedWatering sd e lw now = []
      · rw [evalThresholdEntry_empty sd now k e lw h2] at h ⊢
        simp only [Option.toList_none, List.nil_append] at h ⊢
        exact ih lw p h
      · rw [evalThresholdEntry_active sd now k e lw h1 h2] at h ⊢
        simp only [Option.toList_some, List.singleton_append, includedB_cons,
          Bool.or_eq_true] at h
        rcases h with hhead | hrest
        · rw [thresholdJob_potNumbers] at hhead
          have hmem : p ∈ potsNeedWatering sd e lw now :=
            of_decide_eq_true hhead
          by_cases hr : includedB p (processThresholds sd now rest
              (updateLW lw (potsNeedWatering sd e lw now) now)).1 = true
          · exact ih _ p hr
          · rw [processThresholds_untouched sd now rest _ p
              (Bool.eq_false_iff.2 hr)]
            simp [updateLW, hmem]
        · exact ih _ p hrest
    · rw [evalThresholdEntry_inactive sd now k e lw (by simpa using h1)]
        at h ⊢
      simp only [Option.toList_none, List.nil_append] at h ⊢
      exact ih lw p h

theorem processThresholds_included_cooldown (sd : Int → SensorVal)
    (now : Nat) :
    ∀ (es : List (String × ThresholdEntry)) (lw : LW) (p : Int),
      includedB p (processThresholds sd now es lw).1 = true →
      cooldownActive (lw p) now = false := by
  intro es
  induction es with
  | nil => intro lw p h; simp [processThresholds, includedB_nil] at h
  | cons ke rest ih =>
    obtain ⟨k, e⟩ := ke
    intro lw p h
    simp only [processThresholds] at h
    by_cases h1 : e.aktif = true
    · by_cases h2 : potsNeedWatering sd e lw now = []
      · rw [evalThresholdEntry_empty sd now k e lw h2] at h
        simp only [Option.toList_none, List.nil_append] at h
        exact ih lw p h
      · rw [evalThresholdEntry_active sd now k e lw h1 h2] at h
        simp only [Option.toList_some, List.singleton_append, includedB_cons,
          Bool.or_eq_true] at h
        rcases h with hhead | hrest
        · rw [thresholdJob_potNumbers] at hhead
          have hmem : p ∈ potsNeedWatering sd e lw now :=
            of_decide_eq_true hhead
          exact ((potNeedsWater_facts sd _ _ lw now p
            ((mem_potsNeedWatering sd e lw now p).1 hmem).2).2.2.2.2)
        · by_cases hmem : p ∈ potsNeedWatering sd e lw now
          · exact ((potNeedsWater_facts sd _ _ lw now p
              ((mem_potsNeedWatering sd e lw now p).1 hmem).2).2.2.2.2)
          · have := ih _ p hrest
            rwa [show updateLW lw (potsNeedWatering sd e lw now) now p = lw p
              by simp [updateLW, hmem]] at this
    · rw [evalThresholdEntry_inactive sd now k e lw (by simpa using h1)] at h
      simp only [Option.toList_none, List.nil_append] at h
      exact ih lw p h

theorem processThresholds_count (sd : Int → SensorVal) (now : Nat)
    (hnow : 0 < now) :
    ∀ (es : List (String × ThresholdEntry)) (lw : LW) (p : Int),
      (processThresholds sd now es lw).1.countP
        (fun jb => decide (p ∈ jb.potNumbers)) ≤ 1 := by
  intro es
  induction es with
  | nil => intro lw p; simp [processThresholds]
  | cons ke rest ih =>
    obtain ⟨k, e⟩ := ke
    intro lw p
    simp only [processThresholds]
    by_cases h1 : e.aktif = true
    · by_cases h2 : potsNeedWatering sd e lw now = []
      · rw [evalThresholdEntry_empty sd now k e lw h2]
        simp only [Option.toList_none, List.nil_append]
        exact ih lw p
      · rw [evalThresholdEntry_active sd now k e lw h1 h2]
        simp only [Option.toList_some, List.singleton_append,
          List.countP_cons]
        by_cases hmem : p ∈ potsNeedWatering sd e lw now
        · have hblock : includedB p (processThresholds sd now rest
              (updateLW lw (potsNeedWatering sd e lw now) now)).1 = false := by
            by_contra hcon
            have htrue : includedB p (processThresholds sd now rest
                (updateLW lw (potsNeedWatering sd e lw now) now)).1 = true :=
              Bool.ne_false_iff.1 hcon
            have hcd := processThresholds_included_cooldown sd now rest _ p
              htrue
            rw [show updateLW lw (potsNeedWatering sd e lw now) now p
                = some now by simp [updateLW, hmem]] at hcd
            rw [cooldownActive_self now hnow] at hcd
            exact absurd hcd (by simp)
          have hz : (processThresholds sd now rest
              (updateLW lw (potsNeedWatering sd e lw now) now)).1.countP
                (fun jb => decide (p ∈ jb.potNumbers)) = 0 := by
            rw [List.countP_eq_zero]
            intro jb hjb
            intro hdec
            have : includedB p (processThresholds sd now rest
                (updateLW lw (potsNeedWatering sd e lw now) now)).1 = true := by
              simp only [includedB, List.any_eq_true]
              exact ⟨jb, hjb, hdec⟩
            rw [hblock] at this
            exact Bool.false_ne_true this
          rw [hz]
          simp [thresholdJob_potNumbers, hmem]
        · have : (decide (p ∈ (thresholdJob sd now k e lw).potNumbers)) = false := by
            rw [thresholdJob_potNumbers]
            exact decide_eq_false hmem
          rw [this]
          simpa using ih _ p
    · rw [evalThresholdEntry_inactive sd now k e lw (by simpa using h1)]
      simp only [Option.toList_none, List.nil_append]
      exact ih lw p

theorem checkRun_untouched (sd : Option (Int → SensorVal))
    (kontrol : Option SensorKontrol) (now : Nat) (lw : LW) (p : Int)
    (h : includedB p (checkSensorThresholdsRun sd kontrol now lw).1 = false) :
    (checkSensorThresholdsRun sd kontrol now lw).2 p = lw p := by
  cases sd with
  | none => rfl
  | some sdv =>
    cases kontrol with
    | none => rfl
    | some kc =>
      by_cases ho : kc.otomatis = true
      · simp only [checkSensorThresholdsRun, ho, not_true, if_false,
          Bool.true_eq_false, reduceIte] at h ⊢
        exact processThresholds_untouched sdv now kc.thresholds lw p h
      · simp only [checkSensorThresholdsRun]
        rw [if_pos (by simpa using ho)]

theorem checkRun_included_stamp (sd : Option (Int → SensorVal))
    (kontrol : Option SensorKontrol) (now : Nat) (lw : LW) (p : Int)
    (h : includedB p (checkSensorThresholdsRun sd kontrol now lw).1 = true) :
    (checkSensorThresholdsRun sd kontrol now lw).2 p = some now := by
  cases sd with
  | none => simp [checkSensorThresholdsRun, includedB_nil] at h
  | some sdv =>
    cases kontrol with
    | none => simp [checkSensorThresholdsRun, includedB_nil] at h
    | some kc =>
      by_cases ho : kc.otomatis = true
      · simp only [checkSensorThresholdsRun, ho, not_true, if_false,
          Bool.true_eq_false, reduceIte] at h ⊢
        exact processThresholds_included_stamp sdv now kc.thresholds lw p h
      · rw [show checkSensorThresholdsRun (some sdv) (some kc) now lw
            = ([], lw) by simp [checkSensorThresholdsRun, if_pos, ho]] at h
        simp [includedB_nil] at h

theorem checkRun_included_cooldown (sd : Option (Int → SensorVal))
    (kontrol : Option SensorKontrol) (now : Nat) (lw : LW) (p : Int)
    (h : includedB p (checkSensorThresholdsRun sd kontrol now lw).1 = true) :
    cooldownActive (lw p) now = false := by
  cases sd with
  | none => simp [checkSensorThresholdsRun, includedB_nil] at h
  | some sdv =>
    cases kontrol with
    | none => simp [checkSensorThresholdsRun, includedB_nil] at h
    | some kc =>
      by_cases ho : kc.otomatis = true
      · simp only [checkSensorThresholdsRun, ho, not_true, if_false,
          Bool.true_eq_false, reduceIte] at h
        exact processThresholds_included_cooldown sdv now kc.thresholds lw p h
      · rw [show checkSensorThresholdsRun (some sdv) (some kc) now lw
            = ([], lw) by simp [checkSensorThresholdsRun, if_pos, ho]] at h
        simp [includedB_nil] at h

theorem checkRun_count (sd : Option (Int → SensorVal))
    (kontrol : Option SensorKontrol) (now : Nat) (hnow : 0 < now) (lw : LW)
    (p : Int) :
    (checkSensorThresholdsRun sd kontrol now lw).1.countP
      (fun jb => decide (p ∈ jb.potNumbers)) ≤ 1 := by
  cases sd with
  | none => simp [checkSensorThresholdsRun]
  | some sdv =>
    cases kontrol with
    | none => simp [checkSensorThresholdsRun]
    | some kc =>
      by_cases ho : kc.otomatis = true
      · simp only [checkSensorThresholdsRun, ho, not_true, if_false,
          Bool.true_eq_false, reduceIte]
        exact processThresholds_count sdv now hnow kc.thresholds lw p
      · rw [show checkSensorThresholdsRun (some sdv) (some kc) now lw
            = ([], lw) by simp [checkSensorThresholdsRun, if_pos, ho]]
        simp

theorem jobsAt_nil (lw : LW) (k : Nat) : jobsAt [] lw k = [] := by
  simp [jobsAt, runSensorChecks]

theorem jobsAt_cons_zero (x : SensorCheckInput) (xs : List SensorCheckInput)
    (lw : LW) :
    jobsAt (x :: xs) lw 0
      = (checkSensorThresholdsRun x.sd x.kontrol x.now lw).1 := by
  simp [jobsAt, runSensorChecks]

theorem jobsAt_cons_succ (x : SensorCheckInput) (xs : List SensorCheckInput)
    (lw : LW) (k : Nat) :
    jobsAt (x :: xs) lw (k + 1)
      = jobsAt xs (checkSensorThresholdsRun x.sd x.kontrol x.now lw).2 k := by
  simp [jobsAt, runSensorChecks]

theorem timeAt_cons_zero (x : SensorCheckInput) (xs : List SensorCheckInput) :
    timeAt (x :: xs) 0 = x.now := by
  simp [timeAt]

theorem timeAt_cons_succ (x : SensorCheckInput) (xs : List SensorCheckInput)
    (k : Nat) : timeAt (x :: xs) (k + 1) = timeAt xs k := by
  simp [timeAt]

theorem run_included_gap :
    ∀ (xs : List SensorCheckInput) (lw : LW) (p : Int) (t0 : Nat),
      lw p = some t0 → 0 < t0 →
      (∀ x ∈ xs, t0 ≤ x.now ∧ 0 < x.now) →
      List.Pairwise (fun a b => a.now ≤ b.now) xs →
      ∀ k, includedB p (jobsAt xs lw k) = true →
        sensorDebounce ≤ timeAt xs k - t0 := by
  intro xs
  induction xs with
  | nil =>
    intro lw p t0 _ _ _ _ k h
    rw [jobsAt_nil] at h
    simp [includedB_nil] at h
  | cons x rest ih =>
    intro lw p t0 hlw ht0 hbound hpw k h
    have hx := hbound x (List.mem_cons_self x rest)
    match k with
    | 0 =>
      rw [jobsAt_cons_zero] at h
      have hcd := checkRun_included_cooldown x.sd x.kontrol x.now lw p h
      rw [hlw] at hcd
      have hgap := cooldown_false_gap t0 x.now hcd (by omega)
      rw [timeAt_cons_zero]
      exact hgap
    | k + 1 =>
      rw [jobsAt_cons_succ] at h
      rw [timeAt_cons_succ]
      have hmono : ∀ y ∈ rest, x.now ≤ y.now :=
        (List.pairwise_cons.1 hpw).1
      by_cases hinc : includedB p
          (checkSensorThresholdsRun x.sd x.kontrol x.now lw).1 = true
      · have hstamp := checkRun_included_stamp x.sd x.kontrol x.now lw p hinc
        have := ih (checkSensorThresholdsRun x.sd x.kontrol x.now lw).2 p
          x.now hstamp hx.2
          (fun y hy => ⟨hmono y hy, (hbound y (List.mem_cons_of_mem x hy)).2⟩)
          (List.pairwise_cons.1 hpw).2 k h
        have hle : t0 ≤ x.now := hx.1
        omega
      · have huntouched := checkRun_untouched x.sd x.kontrol x.now lw p
          (Bool.eq_false_iff.2 hinc)
        rw [hlw] at huntouched
        exact ih (checkSensorThresholdsRun x.sd x.kontrol x.now lw).2 p t0
          huntouched ht0
          (fun y hy => hbound y (List.mem_cons_of_mem x hy))
          (List.pairwise_cons.1 hpw).2 k h

theorem run_gap_between_inclusions :
    ∀ (inputs : List SensorCheckInput) (lw : LW) (p : Int) (i j : Nat),
      i < j →
      (∀ x ∈ inputs, 0 < x.now) →
      List.Pairwise (fun a b => a.now ≤ b.now) inputs →
      includedB p (jobsAt inputs lw i) = true →
      includedB p (jobsAt inputs lw j) = true →
      sensorDebounce ≤ timeAt inputs j - timeAt inputs i := by
  intro inputs
  induction inputs with
  | nil =>
    intro lw p i j _ _ _ hi _
    rw [jobsAt_nil] at hi
    simp [includedB_nil] at hi
  | cons x rest ih =>
    intro lw p i j hij hpos hpw hi hj
    match i, j with
    | 0, j + 1 =>
      rw [jobsAt_cons_zero] at hi
      rw [jobsAt_cons_succ] at hj
      rw [timeAt_cons_zero, timeAt_cons_succ]
      have hstamp := checkRun_included_stamp x.sd x.kontrol x.now lw p hi
      exact run_included_gap rest
        (checkSensorThresholdsRun x.sd x.kontrol x.now lw).2 p x.now hstamp
        (hpos x (List.mem_cons_self x rest))
        (fun y hy => ⟨(List.pairwise_cons.1 hpw).1 y hy,
          hpos y (List.mem_cons_of_mem x hy)⟩)
        (List.pairwise_cons.1 hpw).2 j hj
    | i + 1, j + 1 =>
      rw [jobsAt_cons_succ] at hi hj
      rw [timeAt_cons_succ, timeAt_cons_succ]
      exact ih (checkSensorThresholdsRun x.sd x.kontrol x.now lw).2 p i j
        (by omega)
        (fun y hy => hpos y (List.mem_cons_of_mem x hy))
        (List.pairwise_cons.1 hpw).2 hi hj

theorem run_count_per_tick :
    ∀ (inputs : List SensorCheckInput) (lw : LW) (p : Int) (i : Nat),
      (∀ x ∈ inputs, 0 < x.now) →
      (jobsAt inputs lw i).countP (fun jb => decide (p ∈ jb.potNumbers)) ≤ 1 := by
  intro inputs
  induction inputs with
  | nil =>
    intro lw p i _
    rw [jobsAt_nil]
    simp
  | cons x rest ih =>
    intro lw p i hpos
    match i with
    | 0 =>
      rw [jobsAt_cons_zero]
      exact checkRun_count x.sd x.kontrol x.now
        (hpos x (List.mem_cons_self x rest)) lw p
    | i + 1 =>
      rw [jobsAt_cons_succ]
      exact ih _ p i (fun y hy => hpos y (List.mem_cons_of_mem x hy))

theorem evalThresholdEntry_some_inv (sd : Int → SensorVal) (now : Nat)
    (key : String) (e : ThresholdEntry) (lw : LW) (jb : Job) (lw2 : LW)
    (h : evalThresholdEntry sd now key e lw = (some jb, lw2)) :
    e.aktif = true ∧ potsNeedWatering sd e lw now ≠ [] ∧
    jb = thresholdJob sd now key e lw ∧
    lw2 = updateLW lw (potsNeedWatering sd e lw now) now := by
  by_cases h1 : e.aktif = true
  · by_cases h2 : potsNeedWatering sd e lw now = []
    · rw [evalThresholdEntry_empty sd now key e lw h2] at h
      exact absurd (congrArg Prod.fst h) (by simp)
    · rw [evalThresholdEntry_active sd now key e lw h1 h2] at h
      have hfst : some (thresholdJob sd now key e lw) = some jb :=
        congrArg Prod.fst h
      have hsnd : updateLW lw (potsNeedWatering sd e lw now) now = lw2 :=
        congrArg Prod.snd h
      exact ⟨h1, h2, (Option.some.inj hfst).symm, hsnd.symm⟩
  · rw [evalThresholdEntry_inactive sd now key e lw (by simpa using h1)] at h
    exact absurd (congrArg Prod.fst h) (by simp)

/-- C3: the cooldown machinery of the Threshold Evaluator.  (1) the
debounce is 120 seconds; (2) when an entry enqueues a job, the cooldown
stamp of every included pot is set to the enqueue clock value in the
very state returned by the evaluation — before the job runs; (3) a pot
with an active cooldown is never marked as needing water; (4) over any
run of sensor checks with positive, nondecreasing clock values, a pot
included in jobs of two distinct ticks was included at least the
debounce apart; (5) within a single tick a pot is included in at most
one job. -/
theorem claim_C3_cooldown_window :
    (sensorDebounce = 120000) ∧
    (∀ (sd : Int → SensorVal) (now : Nat) (key : String)
        (e : ThresholdEntry) (lw : LW) (jb : Job) (lw2 : LW),
      evalThresholdEntry sd now key e lw = (some jb, lw2) →
      ∀ p ∈ jb.potNumbers, lw2 p = some now) ∧
    (∀ (sd : Int → SensorVal) (bB bA : Int) (lw : LW) (now : Nat) (p : Int),
      cooldownActive (lw p) now = true →
      potNeedsWater sd bB bA lw now p = false) ∧
    (∀ (inputs : List SensorCheckInput) (lw : LW) (p : Int) (i j : Nat),
      i < j →
      (∀ x ∈ inputs, 0 < x.now) →
      List.Pairwise (fun a b => a.now ≤ b.now) inputs →
      includedB p (jobsAt inputs lw i) = true →
      includedB p (jobsAt inputs lw j) = true →
      sensorDebounce ≤ timeAt inputs j - timeAt inputs i) ∧
    (∀ (inputs : List SensorCheckInput) (lw : LW) (p : Int) (i : Nat),
      (∀ x ∈ inputs, 0 < x.now) →
      (jobsAt inputs lw i).countP
        (fun jb => decide (p ∈ jb.potNumbers)) ≤ 1) := by
  refine ⟨rfl, ?_, ?_, run_gap_between_inclusions, run_count_per_tick⟩
  · intro sd now key e lw jb lw2 h p hp
    obtain ⟨-, -, hjb, hlw2⟩ :=
      evalThresholdEntry_some_inv sd now key e lw jb lw2 h
    subst hjb
    rw [thresholdJob_potNumbers] at hp
    rw [hlw2]
    simp [updateLW, hp]
  · intro sd bB bA lw now p hcd
    cases hpn : potNeedsWater sd bB bA lw now p
    · rfl
    · have := (potNeedsWater_facts sd bB bA lw now p hpn).2.2.2.2
      rw [hcd] at this
      exact absurd this (by simp)

/-- Witness for C3: on the sample run, pot 1 is included by the ticks at
1 000 ms and 200 000 ms, which are at least the 120 000 ms debounce
apart. -/
theorem claim_C3_cooldown_window_witness :
    sensorDebounce ≤ timeAt sampleInputs 1 - timeAt sampleInputs 0 :=
  claim_C3_cooldown_window.2.2.2.1 sampleInputs (fun _ => none) 1 0 1
    (by omega) (by decide) (by decide) (by decide) (by decide)

/-- C5: a pot whose reading is at or above the entry's (effective) upper
bound is never marked as needing water and never appears in the entry's
job, and every pot that is marked has a reading strictly below the lower
bound (and below the upper bound) with no active cooldown. -/
theorem claim_C5_upper_bound_skips_pot :
    ∀ (sd : Int → SensorVal) (e : ThresholdEntry) (lw : LW) (now : Nat)
      (p : Int),
      (effBatasAtas e ≤ parseSoilValue (sd p) →
        p ∉ potsNeedWatering sd e lw now) ∧
      (p ∈ potsNeedWatering sd e lw now →
        parseSoilValue (sd p) < effBatasBawah e ∧
        parseSoilValue (sd p) < effBatasAtas e ∧
        cooldownActive (lw p) now = false) ∧
      (∀ (key : String) (jb : Job) (lw2 : LW),
        evalThresholdEntry sd now key e lw = (some jb, lw2) →
        effBatasAtas e ≤ parseSoilValue (sd p) → p ∉ jb.potNumbers) := by
  intro sd e lw now p
  have hmarked : p ∈ potsNeedWatering sd e lw now →
      parseSoilValue (sd p) < effBatasBawah e ∧
      parseSoilValue (sd p) < effBatasAtas e ∧
      cooldownActive (lw p) now = false := by
    intro hmem
    have hfacts := potNeedsWater_facts sd (effBatasBawah e) (effBatasAtas e)
      lw now p ((mem_potsNeedWatering sd e lw now p).1 hmem).2
    exact ⟨hfacts.2.2.2.1, hfacts.2.2.1, hfacts.2.2.2.2⟩
  have hskip : effBatasAtas e ≤ parseSoilValue (sd p) →
      p ∉ potsNeedWatering sd e lw now := by
    intro hA hmem
    have := (hmarked hmem).2.1
    omega
  refine ⟨hskip, hmarked, ?_⟩
  intro key jb lw2 h hA hp
  obtain ⟨-, -, hjb, -⟩ := evalThresholdEntry_some_inv sd now key e lw jb lw2 h
  subst hjb
  rw [thresholdJob_potNumbers] at hp
  exact hskip hA hp

/-- Witness for C5: with every reading at 80% (above the default upper
bound 70), pot 1 is not marked. -/
theorem claim_C5_upper_bound_skips_pot_witness :
    (1 : Int) ∉ potsNeedWatering (fun _ => SensorVal.numeric 80)
      sampleThresholdEntry (fun _ => none) 1000 :=
  (claim_C5_upper_bound_skips_pot (fun _ => SensorVal.numeric 80)
    sampleThresholdEntry (fun _ => none) 1000 1).1 (by decide)

/-- C6: when an active threshold entry has at least one pot needing
water, its evaluation enqueues exactly one job; that job's `potNumbers`
is the full list of pots of the entry that need water, and the job
carries the entry's (defaulted) smart-mode flag, lower and upper bounds,
and duration.  When no pot needs water, no job is enqueued. -/
theorem claim_C6_one_job_covers_all_pots :
    ∀ (sd : Int → SensorVal) (now : Nat) (key : String) (e : ThresholdEntry)
      (lw : LW),
      (e.aktif = true → potsNeedWatering sd e lw now ≠ [] →
        ∃ jb, evalThresholdEntry sd now key e lw
            = (some jb, updateLW lw (potsNeedWatering sd e lw now) now) ∧
          jb.potNumbers = potsNeedWatering sd e lw now ∧
          jb.type = "sensor_threshold" ∧
          jb.smartMode = effSmartMode e ∧
          jb.duration = effDurasi e ∧
          jb.pompaAir = effPompaAir e ∧
          jb.pompaPupuk = effPompaPupuk e ∧
          jb.sensorData = some
            { batasBawah := effBatasBawah e
              batasAtas := effBatasAtas e
              mode := if effSmartMode e then "smart" else "fixed"
              potValues := (potsNeedWatering sd e lw now).map
                (fun q => (q, parseSoilValue (sd q))) }) ∧
      (potsNeedWatering sd e lw now = [] →
        (evalThresholdEntry sd now key e lw).1 = none) := by
  intro sd now key e lw
  constructor
  · intro h1 h2
    exact ⟨thresholdJob sd now key e lw,
      evalThresholdEntry_active sd now key e lw h1 h2,
      rfl, rfl, rfl, rfl, rfl, rfl, rfl⟩
  · intro h2
    rw [evalThresholdEntry_empty sd now key e lw h2]

/-- Witness for C6 on the sample data: the entry is triggered and its
single job covers pot 1. -/
theorem claim_C6_one_job_covers_all_pots_witness :
    ∃ jb, evalThresholdEntry sampleSensorDry 1000 "threshold_1"
        sampleThresholdEntry (fun _ => none)
        = (some jb, updateLW (fun _ => none)
            (potsNeedWatering sampleSensorDry sampleThresholdEntry
              (fun _ => none) 1000) 1000) ∧
      jb.potNumbers = potsNeedWatering sampleSensorDry sampleThresholdEntry
        (fun _ => none) 1000 ∧
      jb.type = "sensor_threshold" ∧
      jb.smartMode = effSmartMode sampleThresholdEntry ∧
      jb.duration = effDurasi sampleThresholdEntry ∧
      jb.pompaAir = effPompaAir sampleThresholdEntry ∧
      jb.pompaPupuk = effPompaPupuk sampleThresholdEntry ∧
      jb.sensorData = some
        { batasBawah := effBatasBawah sampleThresholdEntry
          batasAtas := effBatasAtas sampleThresholdEntry
          mode := if effSmartMode sampleThresholdEntry then "smart"
            else "fixed"
          potValues := (potsNeedWatering sampleSensorDry sampleThresholdEntry
            (fun _ => none) 1000).map
              (fun q => (q, parseSoilValue (sampleSensorDry q))) } :=
  (claim_C6_one_job_covers_all_pots sampleSensorDry 1000 "threshold_1"
    sampleThresholdEntry (fun _ => none)).1 rfl (by decide)

/-- C10: a missing or non-numeric sensor reading parses to `0`; `0` is
below every positive (effective) lower bound, so — the entry's upper
bound being a moisture percentage, hence nonnegative when present — such
a pot is treated as dry and, when its cooldown is not active, is marked
as needing water rather than skipped. -/
theorem claim_C10_missing_reading_is_dry :
    (parseSoilValue SensorVal.missing = 0) ∧
    (∀ s, parseSoilValue (SensorVal.nonNumeric s) = 0) ∧
    (∀ (sd : Int → SensorVal) (e : ThresholdEntry) (lw : LW) (now : Nat)
        (p : Int),
      (sd p = SensorVal.missing ∨ ∃ s, sd p = SensorVal.nonNumeric s) →
      p ∈ e.pot_aktif.getD [] → 1 ≤ p → p ≤ 5 →
      0 < effBatasBawah e →
      (∀ v, e.batas_atas = some v → 0 ≤ v) →
      cooldownActive (lw p) now = false →
      p ∈ potsNeedWatering sd e lw now) := by
  refine ⟨rfl, fun _ => rfl, ?_⟩
  intro sd e lw now p hval hp h1 h5 hbB hAnn hcd
  have hsoil : parseSoilValue (sd p) = 0 := by
    rcases hval with h | ⟨s, h⟩ <;> rw [h] <;> rfl
  have hbA : 0 < effBatasAtas e := by
    unfold effBatasAtas
    cases hba : e.batas_atas with
    | none =>
      simp only [jsOrInt]
      norm_num
    | some v =>
      have hv := hAnn v hba
      simp only [jsOrInt]
      by_cases hv0 : v = 0
      · rw [if_pos hv0]
        norm_num
      · rw [if_neg hv0]
        omega
  refine (mem_potsNeedWatering sd e lw now p).2 ⟨hp, ?_⟩
  refine potNeedsWater_of_facts sd (effBatasBawah e) (effBatasAtas e) lw now p
    h1 h5 ?_ ?_ hcd
  · rw [hsoil]; exact hbA
  · rw [hsoil]; exact hbB

/-- Witness for C10: with a missing reading and the default bounds,
pot 1 is marked as needing water. -/
theorem claim_C10_missing_reading_is_dry_witness :
    (1 : Int) ∈ potsNeedWatering (fun _ => SensorVal.missing)
      sampleThresholdEntry (fun _ => none) 1000 :=
  claim_C10_missing_reading_is_dry.2.2 (fun _ => SensorVal.missing)
    sampleThresholdEntry (fun _ => none) 1000 1 (Or.inl rfl) (by decide)
    (by decide) (by decide) (by decide)
    (by intro v hv; exact absurd hv (by simp [sampleThresholdEntry]))
    (by decide)

theorem string_data_append (a b : String) :
    (a ++ b).data = a.data ++ b.data := rfl

theorem isPrefixOf_append_self (l r : List Char) :
    l.isPrefixOf (l ++ r) = true := by
  induction l with
  | nil => simp [List.isPrefixOf]
  | cons a as ih => simp [List.isPrefixOf, ih]

theorem listContainsSub_self_append (sub r : List Char) :
    listContainsSub sub (sub ++ r) = true := by
  cases sub with
  | nil =>
    cases r with
    | nil => rfl
    | cons c cs => simp [listContainsSub, List.isPrefixOf]
  | cons a as => simp [listContainsSub, isPrefixOf_append_self]

theorem listContainsSub_append_left (sub post pre : List Char)
    (h : listContainsSub sub post = true) :
    listContainsSub sub (pre ++ post) = true := by
  induction pre with
  | nil => simpa using h
  | cons c cs ih =>
    simp only [List.cons_append, listContainsSub, Bool.or_eq_true]
    exact Or.inr ih

theorem strIncludes_mkJobKey (name d t : String) :
    strIncludes (mkJobKey name d t) d = true := by
  unfold strIncludes mkJobKey
  have hdata : (name ++ "_" ++ d ++ "_" ++ replaceFirstColon t).data
      = (name.data ++ "_".data)
        ++ (d.data ++ ("_".data ++ (replaceFirstColon t).data)) := by
    simp [string_data_append, List.append_assoc]
  rw [hdata]
  exact listContainsSub_append_left d.data _ _
    (listContainsSub_self_append d.data _)

theorem stageOK_skip (id : String) : StageOK id (fun L => ([], L)) := by
  intro L
  exact ⟨fun h => h, by simp, by simp, fun _ => by simp⟩

theorem stageOK_cleanup (id d : String) (hd : strIncludes id d = true) :
    StageOK id (cleanupStage d) := by
  intro L
  refine ⟨?_, by simp [cleanupStage], by simp [cleanupStage],
    fun _ => by simp [cleanupStage]⟩
  intro hid
  exact List.mem_filter.2 ⟨hid, hd⟩

theorem stageOK_seq (id : String)
    (f g : List String → List Job × List String)
    (hf : StageOK id f) (hg : StageOK id g) :
    StageOK id (seqStage f g) := by
  intro L
  obtain ⟨hf1, hf2, hf3, hf4⟩ := hf L
  obtain ⟨hg1, hg2, hg3, hg4⟩ := hg (f L).2
  simp only [seqStage, List.countP_append]
  refine ⟨fun hid => hg1 (hf1 hid), ?_, ?_, ?_⟩
  · by_cases hcf : (f L).1.countP (fun j => decide (j.scheduleId = id)) = 1
    · have := hg4 (hf3 hcf)
      omega
    · omega
  · intro hsum
    by_cases hcf : (f L).1.countP (fun j => decide (j.scheduleId = id)) = 1
    · exact hg1 (hf3 hcf)
    · have : (g (f L).2).1.countP
          (fun j => decide (j.scheduleId = id)) = 1 := by omega
      exact hg3 this
  · intro hid
    have h0f := hf4 hid
    have h0g := hg4 (hf1 hid)
    omega

theorem stageOK_runTry (id : String)
    (tryf : List String → Option (Job × List String))
    (hspec : ∀ L j L2, tryf L = some (j, L2) →
      j.scheduleId ∉ L ∧ L2 = j.scheduleId :: L) :
    StageOK id (runTry tryf) := by
  intro L
  cases htry : tryf L with
  | none =>
    simp only [runTry, htry]
    exact ⟨fun h => h, by simp, by simp, fun _ => by simp⟩
  | some jl =>
    obtain ⟨j, L2⟩ := jl
    obtain ⟨hnot, hL2⟩ := hspec L j L2 htry
    subst hL2
    simp only [runTry, htry]
    by_cases hj : j.scheduleId = id
    · refine ⟨fun hid => List.mem_cons_of_mem _ hid, by simp [hj], ?_, ?_⟩
      · intro _
        exact List.mem_cons.2 (Or.inl hj.symm)
      · intro hid
        exact absurd (hj ▸ hid) hnot
    · refine ⟨fun hid => List.mem_cons_of_mem _ hid, by simp [hj], ?_, ?_⟩
      · intro hone
        simp [hj] at hone
      · intro _
        simp [hj]

theorem tryEnqueueSchedule_spec (t d k : String) (s : Schedule) :
    ∀ (L : List String) (j : Job) (L2 : List String),
      tryEnqueueSchedule t d k s L = some (j, L2) →
      j.scheduleId = mkJobKey k d t ∧ j.scheduleId ∉ L ∧
        L2 = j.scheduleId :: L := by
  intro L j L2 h
  unfold tryEnqueueSchedule at h
  split_ifs at h with h1 h2 h3 h4 h5
  simp only [Option.some.injEq, Prod.mk.injEq] at h
  obtain ⟨hj, hL⟩ := h
  subst hj
  exact ⟨rfl, h5, hL.symm⟩

theorem tryEnqueueLegacy_spec (t d name ty : String) (w : Option String)
    (dur : Option Nat) :
    ∀ (L : List String) (j : Job) (L2 : List String),
      tryEnqueueLegacy t d name ty w dur L = some (j, L2) →
      j.scheduleId = mkJobKey name d t ∧ j.scheduleId ∉ L ∧
        L2 = j.scheduleId :: L := by
  intro L j L2 h
  unfold tryEnqueueLegacy at h
  split_ifs at h with h1 h2 h3
  simp only [Option.some.injEq, Prod.mk.injEq] at h
  obtain ⟨hj, hL⟩ := h
  subst hj
  exact ⟨rfl, h3, hL.symm⟩

theorem stageOK_processSchedules (id t d : String) :
    ∀ es : List (String × Schedule), StageOK id (processSchedules t d es) := by
  intro es
  induction es with
  | nil =>
    intro L
    exact ⟨fun h => h, by simp [processSchedules],
      by simp [processSchedules], fun _ => by simp [processSchedules]⟩
  | cons ke rest ih =>
    obtain ⟨k, s⟩ := ke
    have hstep := stageOK_runTry id (tryEnqueueSchedule t d k s)
      (fun L j L2 h => ⟨(tryEnqueueSchedule_spec t d k s L j L2 h).2.1,
        (tryEnqueueSchedule_spec t d k s L j L2 h).2.2⟩)
    have hseq := stageOK_seq id (runTry (tryEnqueueSchedule t d k s))
      (processSchedules t d rest) hstep ih
    intro L
    exact hseq L

theorem stageOK_schedCycleCore (id t d : String)
    (hd : strIncludes id d = true) (cfg : Option Kontrol) :
    StageOK id (schedCycleCore cfg t d) := by
  cases cfg with
  | none => exact stageOK_skip id
  | some kc =>
    by_cases hw : kc.waktu = true
    · have h1 := stageOK_runTry id
        (tryEnqueueLegacy t d "legacy_jadwal_1" "waktu_jadwal_1"
          kc.waktu_1 kc.durasi_1)
        (fun L j L2 h =>
          ⟨(tryEnqueueLegacy_spec t d _ _ _ _ L j L2 h).2.1,
           (tryEnqueueLegacy_spec t d _ _ _ _ L j L2 h).2.2⟩)
      have h2 := stageOK_runTry id
        (tryEnqueueLegacy t d "legacy_jadwal_2" "waktu_jadwal_2"
          kc.waktu_2 kc.durasi_2)
        (fun L j L2 h =>
          ⟨(tryEnqueueLegacy_spec t d _ _ _ _ L j L2 h).2.1,
           (tryEnqueueLegacy_spec t d _ _ _ _ L j L2 h).2.2⟩)
      have hall := stageOK_seq id _ _ (stageOK_processSchedules id t d kc.jadwal)
        (stageOK_seq id _ _ h1
          (stageOK_seq id _ _ h2 (stageOK_cleanup id d hd)))
      intro L
      have := hall L
      simpa [schedCycleCore, hw] using this
    · intro L
      have hsk := stageOK_skip id L
      simp only [schedCycleCore]
      rw [if_pos (by simpa using hw)]
      exact hsk

theorem stageOK_checkScheduledWatering (id t d : String)
    (hd : strIncludes id d = true)
    (fetched : Except Unit (Option Kontrol)) :
    StageOK id (checkScheduledWatering fetched t d) := by
  cases fetched with
  | error e => exact stageOK_skip id
  | ok cfg => exact stageOK_schedCycleCore id t d hd cfg

theorem stageOK_runScheduleCycles (id d : String)
    (hd : strIncludes id d = true) :
    ∀ inputs : List (Except Unit (Option Kontrol) × String),
      StageOK id (runScheduleCycles d inputs) := by
  intro inputs
  induction inputs with
  | nil =>
    intro L
    exact ⟨fun h => h, by simp [runScheduleCycles],
      by simp [runScheduleCycles], fun _ => by simp [runScheduleCycles]⟩
  | cons ft rest ih =>
    obtain ⟨f, t⟩ := ft
    have := stageOK_seq id (checkScheduledWatering f t d)
      (runScheduleCycles d rest)
      (stageOK_checkScheduledWatering id t d hd f) ih
    intro L
    exact this L

/-- C2: the Schedule Evaluator's trigger dedup.  A fired job's id is
built from the entry name, the date key and the time-of-day, it must not
already be in the trigger ledger, and firing records it there; and over
any run of schedule-check cycles sharing one date key — however many
ticks fall inside the matching minute — at most one job with a given
(name, date, time-of-day) id is enqueued. -/
theorem claim_C2_at_most_one_job_per_day :
    (∀ (t d k : String) (s : Schedule) (L : List String) (j : Job)
        (L2 : List String),
      tryEnqueueSchedule t d k s L = some (j, L2) →
      j.scheduleId = mkJobKey k d t ∧ j.scheduleId ∉ L ∧
        L2 = j.scheduleId :: L) ∧
    (∀ (name time d : String)
        (inputs : List (Except Unit (Option Kontrol) × String))
        (L0 : List String),
      (runScheduleCycles d inputs L0).1.countP
        (fun j => decide (j.scheduleId = mkJobKey name d time)) ≤ 1) := by
  constructor
  · intro t d k s L j L2 h
    exact tryEnqueueSchedule_spec t d k s L j L2 h
  · intro name time d inputs L0
    exact ((stageOK_runScheduleCycles (mkJobKey name d time) d
      (strIncludes_mkJobKey name d time) inputs) L0).2.1

/-- Witness for C2: a concrete matching entry fires with the id built
from its name, date key and time-of-day, recorded into the ledger. -/
theorem claim_C2_at_most_one_job_per_day_witness :
    ({ type := "waktu_jadwal_1", potNumbers := [1, 2, 3], pompaAir := true,
       pompaPupuk := false, duration := 60,
       scheduleId := "jadwal_1_2026-10-11_08_00" } : Job).scheduleId
        = mkJobKey "jadwal_1" "2026-10-11" "08:00" ∧
    ({ type := "waktu_jadwal_1", potNumbers := [1, 2, 3], pompaAir := true,
       pompaPupuk := false, duration := 60,
       scheduleId := "jadwal_1_2026-10-11_08_00" } : Job).scheduleId
        ∉ ([] : List String) ∧
    ["jadwal_1_2026-10-11_08_00"]
      = ({ type := "waktu_jadwal_1", potNumbers := [1, 2, 3],
           pompaAir := true, pompaPupuk := false, duration := 60,
           scheduleId := "jadwal_1_2026-10-11_08_00" } : Job).scheduleId
        :: ([] : List String) :=
  claim_C2_at_most_one_job_per_day.1 "08:00" "2026-10-11" "jadwal_1"
    { aktif := none, waktu := some "08:00", pot_aktif := some [1, 2, 3],
      durasi := some 60, pompa_air := none, pompa_pupuk := none }
    [] _ _ (by decide)

/-- C8: a schedule-check cycle whose config read fails on both
transports is caught by the cycle's try/catch: it returns normally (the
worker does not crash), enqueues no job and leaves the trigger ledger
untouched; and a later cycle with a successful read performs exactly the
matching it would have performed had the failed cycle never happened. -/
theorem claim_C8_failed_read_cycle_is_noop :
    (∀ (t d : String) (L : List String),
      checkScheduledWatering (Except.error ()) t d L = ([], L)) ∧
    (∀ (t d : String) (L : List String)
        (rest : List (Except Unit (Option Kontrol) × String)),
      runScheduleCycles d ((Except.error (), t) :: rest) L
        = runScheduleCycles d rest L) := by
  constructor
  · intro t d L
    rfl
  · intro t d L rest
    simp [runScheduleCycles, checkScheduledWatering, seqStage]

/-- Counterexample for C7 as stated.  The reset counter also counts the
REST fallback calls made while the SDK failures accumulated: after 3
(SDK-failure, REST-success) calls and only **47** secondary-direct
calls, both counters are already reset and the very next call attempts
and uses the primary transport — not after 50 secondary-direct calls as
the claim requires. -/
theorem claim_C7_counterexample :
    (runFetches fetchSeq47 initialFetchState).1
      = List.replicate 3 FetchOutcome.viaRESTFallback
        ++ List.replicate 47 FetchOutcome.viaRESTDirect ∧
    (runFetches fetchSeq47 initialFetchState).2.consecutiveFirebaseErrors
      = 0 ∧
    (runFetches fetchSeq47 initialFetchState).2.restFallbackCount = 0 ∧
    (fetchKontrolSmart true true
      (runFetches fetchSeq47 initialFetchState).2).1
      = FetchOutcome.viaSDK := by
  decide

/-- C7 amended: after 3 consecutive primary failures the client skips
the primary and serves calls directly over the secondary; the counters
reset — and the primary is retried — once the secondary-success counter
reaches 50, where that counter also includes the secondary fallback
calls made while the primary failures accumulated (so as few as 47
secondary-direct calls suffice); below the threshold a successful
primary call resets both counters, and a primary failure increments the
consecutive-failure count. -/
theorem claim_C7_adaptive_fallback_amended :
    (∀ (s : SmartFetchState) (sdkOk restOk : Bool),
      SKIP_SDK_THRESHOLD ≤ s.consecutiveFirebaseErrors →
      (fetchKontrolSmart sdkOk restOk s).1 ≠ FetchOutcome.viaSDK ∧
      (fetchKontrolSmart sdkOk restOk s).1 ≠ FetchOutcome.viaRESTFallback ∧
      (fetchKontrolSmart sdkOk restOk s).1 ≠ FetchOutcome.failedBoth) ∧
    (∀ (s : SmartFetchState) (sdkOk : Bool),
      SKIP_SDK_THRESHOLD ≤ s.consecutiveFirebaseErrors →
      RESET_THRESHOLD_AFTER ≤ s.restFallbackCount + 1 →
      (fetchKontrolSmart sdkOk true s).1 = FetchOutcome.viaRESTDirect ∧
      (fetchKontrolSmart sdkOk true s).2.consecutiveFirebaseErrors = 0 ∧
      (fetchKontrolSmart sdkOk true s).2.restFallbackCount = 0) ∧
    (∀ (s : SmartFetchState) (sdkOk : Bool),
      SKIP_SDK_THRESHOLD ≤ s.consecutiveFirebaseErrors →
      s.restFallbackCount + 1 < RESET_THRESHOLD_AFTER →
      (fetchKontrolSmart sdkOk true s).1 = FetchOutcome.viaRESTDirect ∧
      (fetchKontrolSmart sdkOk true s).2.restFallbackCount
        = s.restFallbackCount + 1 ∧
      (fetchKontrolSmart sdkOk true s).2.consecutiveFirebaseErrors
        = s.consecutiveFirebaseErrors) ∧
    (∀ (s : SmartFetchState) (restOk : Bool),
      s.consecutiveFirebaseErrors < SKIP_SDK_THRESHOLD →
      (fetchKontrolSmart true restOk s).1 = FetchOutcome.viaSDK ∧
      (fetchKontrolSmart true restOk s).2.consecutiveFirebaseErrors = 0 ∧
      (fetchKontrolSmart true restOk s).2.restFallbackCount = 0) ∧
    (∀ (s : SmartFetchState) (restOk : Bool),
      s.consecutiveFirebaseErrors < SKIP_SDK_THRESHOLD →
      (fetchKontrolSmart false restOk s).2.consecutiveFirebaseErrors
        = s.consecutiveFirebaseErrors + 1) := by
  refine ⟨?_, ?_, ?_, ?_, ?_⟩
  · intro s sdkOk restOk hskip
    unfold fetchKontrolSmart
    rw [if_pos hskip]
    cases restOk
    · simp
    · split_ifs <;> simp
  · intro s sdkOk hskip hreset
    unfold fetchKontrolSmart
    rw [if_pos hskip, if_pos rfl, if_pos hreset]
    exact ⟨rfl, rfl, rfl⟩
  · intro s sdkOk hskip hlt
    unfold fetchKontrolSmart
    rw [if_pos hskip, if_pos rfl, if_neg (by omega)]
    exact ⟨rfl, rfl, rfl⟩
  · intro s restOk hlt
    unfold fetchKontrolSmart
    rw [if_neg (by omega), if_pos rfl]
    exact ⟨rfl, rfl, rfl⟩
  · intro s restOk hlt
    unfold fetchKontrolSmart
    rw [if_neg (by omega)]
    cases restOk <;> simp

/-- Witness for the amended C7: with the error counter at the threshold
and the fallback counter at 49, the next successful secondary-direct
call resets both counters. -/
theorem claim_C7_adaptive_fallback_amended_witness :
    (fetchKontrolSmart true true
      { consecutiveFirebaseErrors := 3, sdkSuccessCount := 0,
        restFallbackCount := 49 }).1 = FetchOutcome.viaRESTDirect ∧
    (fetchKontrolSmart true true
      { consecutiveFirebaseErrors := 3, sdkSuccessCount := 0,
        restFallbackCount := 49 }).2.consecutiveFirebaseErrors = 0 ∧
    (fetchKontrolSmart true true
      { consecutiveFirebaseErrors := 3, sdkSuccessCount := 0,
        restFallbackCount := 49 }).2.restFallbackCount = 0 :=
  claim_C7_adaptive_fallback_amended.2.1
    { consecutiveFirebaseErrors := 3, sdkSuccessCount := 0,
      restFallbackCount := 49 } true (by decide) (by decide)
